import Mathlib

/-!
Shallow embedding of `web/src/cypress/support/profile.ts` (goalert test-fixture
provisioning layer): user, contact-method and notification-rule provisioners,
bulk user creation and the contact-method cleanup operation.

Remote calls (`cy.sql`, `cy.graphql2`, `cy.fixture`) are modelled as an
environment of oracles plus an explicit trace of issued effects; the Chance
random library is modelled as an indexed supply of draws.  JavaScript `x || d`
defaulting is modelled faithfully: `0` and `""` are falsy and trigger the
default.
-/

namespace Profile2


/-- Role enum of the TypeScript declarations: `user` or `admin`. -/
inductive UserRole where
  | user
  | admin
deriving DecidableEq, Repr

/-- String form of a role, as interpolated into the SQL insert. -/
def UserRole.str : UserRole → String
  | .user => "user"
  | .admin => "admin"

/-- Completed `Profile` record: `{id, name, email, role}`. -/
structure Profile where
  id : String
  name : String
  email : String
  role : UserRole
deriving DecidableEq, Repr

/-- Partial user specification `UserOptions` (all fields optional). -/
structure UserOptions where
  name : Option String := none
  email : Option String := none
  role : Option UserRole := none
deriving DecidableEq, Repr

/-- Contact-method type enum: `SMS` or `VOICE`. -/
inductive CMType where
  | SMS
  | VOICE
deriving DecidableEq, Repr

/-- Completed `ContactMethod` record: `{id, userID, name, type, value}`. -/
structure ContactMethod where
  id : String
  userID : String
  name : String
  type : CMType
  value : String
deriving DecidableEq, Repr

/-- Partial contact-method specification `ContactMethodOptions`. -/
structure ContactMethodOptions where
  userID : Option String := none
  name : Option String := none
  type : Option CMType := none
  value : Option String := none
deriving DecidableEq, Repr

/-- Completed `NotificationRule` record:
`{id, userID, contactMethodID, contactMethod, delayMinutes}`. -/
structure NotificationRule where
  id : String
  userID : String
  contactMethodID : String
  contactMethod : ContactMethod
  delayMinutes : Nat
deriving DecidableEq, Repr

/-- Partial notification-rule specification `NotificationRuleOptions`. -/
structure NotificationRuleOptions where
  userID : Option String := none
  delayMinutes : Option Nat := none
  contactMethodID : Option String := none
  contactMethod : Option ContactMethodOptions := none
deriving DecidableEq, Repr

/-- JavaScript truthiness of an optional string field: `undefined` and `""`
are falsy (`!x` is true), any other string is truthy. -/
def truthy : Option String → Bool
  | none => false
  | some s => s != ""

/-- JavaScript `o || d` for an optional string field: the default is used when
the field is absent or the empty string. -/
def orStr (o : Option String) (d : String) : String :=
  match o with
  | none => d
  | some s => if s = "" then d else s

/-- JavaScript `o || d` for an optional numeric field: the default is used when
the field is absent or `0`. -/
def orNat (o : Option Nat) (d : Nat) : Nat :=
  match o with
  | none => d
  | some n => if n = 0 then d else n

/-- Big-endian decimal character list of `n`; the first argument is fuel
bounding the recursion depth (`n` itself is always enough fuel). -/
def decDigits : Nat → Nat → List Char
  | 0, _ => []
  | fuel + 1, n =>
    if n = 0 then []
    else decDigits fuel (n / 10) ++ [Nat.digitChar (n % 10)]

/-- Decimal representation of a natural number, as produced by the JavaScript
number-to-string coercion in `"+1763" + c.integer(...)`. -/
def natToDec (n : Nat) : String :=
  if n = 0 then "0" else String.mk (decDigits n n)

/-- Modelled from the spec: the Random Fact Synthesizer (the external Chance
library, not part of this repository).  Each generator is an indexed supply of
draws; `int` draws stay inside the requested range by construction and `email`
carries the guarantee of the spec that synthesized emails are syntactically
valid. -/
structure Chance where
  raw : Nat → Nat
  guid : Nat → String
  word : Nat → Nat → String
  email : Nat → String
  email_valid : ∀ i, ∃ l d, l ≠ "" ∧ d ≠ "" ∧ email i = l ++ "@" ++ d

/-- Draw of `c.integer(...)` from the inclusive range `[lo, hi]`. -/
def Chance.int (c : Chance) (i lo hi : Nat) : Nat :=
  lo + c.raw i % (hi - lo + 1)

/-- Random contact-method type, as `c.pickone` over SMS and VOICE. -/
def Chance.pickCM (c : Chance) (i : Nat) : CMType :=
  if c.raw i % 2 = 0 then .SMS else .VOICE

/-- A syntactically valid email: a nonempty local part, `@`, a nonempty
domain. -/
def ValidEmail (s : String) : Prop :=
  ∃ l d, l ≠ "" ∧ d ≠ "" ∧ s = l ++ "@" ++ d

/-- Input to the `createUserContactMethod` mutation. -/
structure CMInput where
  userID : String
  name : String
  type : CMType
  value : String
deriving DecidableEq, Repr

/-- Input to the `createUserNotificationRule` mutation. -/
structure NRInput where
  userID : String
  contactMethodID : String
  delayMinutes : Nat
deriving DecidableEq, Repr

/-- One remote round trip issued by the provisioning layer. -/
inductive Eff where
  | fixtureLoad
  | sqlInsert (q : String)
  | createCM (input : CMInput)
  | createNR (input : NRInput)
  | queryCMs (userID : String)
  | deleteCM (id : String)
deriving DecidableEq, Repr

/-- The contact-method creation mutations inside a trace. -/
def cmInputsOf (effs : List Eff) : List CMInput :=
  effs.filterMap fun e =>
    match e with
    | .createCM i => some i
    | _ => none

/-- The notification-rule creation mutations inside a trace. -/
def nrInputsOf (effs : List Eff) : List NRInput :=
  effs.filterMap fun e =>
    match e with
    | .createNR i => some i
    | _ => none

/-- The deletion mutations inside a trace. -/
def deletesOf (effs : List Eff) : List String :=
  effs.filterMap fun e =>
    match e with
    | .deleteCM i => some i
    | _ => none

/-- The external collaborators of one provisioning chain: the active test
subject fixture, the random supply, and the remote responses to the two
creation mutations (the remote system is authoritative for the echoed
fields). -/
structure Env where
  prof : Profile
  ch : Chance
  cmResp : CMInput → ContactMethod
  nrResp : NRInput → NotificationRule

/-- One synthesized profile of `createManyUsers`: missing (or empty) `name` and
`email` are synthesized, a missing `role` defaults to `user`, the id is a
fresh guid.  `i` is the position of this entry, indexing its fresh draws. -/
def mkProfile (ch : Chance) (i : Nat) (u : UserOptions) : Profile :=
  { id := ch.guid i
    name := orStr u.name (ch.word i 12)
    email := orStr u.email (ch.email i)
    role := u.role.getD .user }

/-- Indexed map of `createManyUsers` over the option list, with the position
indexing the fresh draws of each entry. -/
def mkProfiles (ch : Chance) : Nat → List UserOptions → List Profile
  | _, [] => []
  | i, u :: rest => mkProfile ch i u :: mkProfiles ch (i + 1) rest

/-- One value-tuple of the batch insert statement. -/
def sqlTuple (p : Profile) : String :=
  "(\x27" ++ p.id ++ "\x27, \x27" ++ p.name ++ "\x27, \x27" ++ p.email ++
    "\x27, \x27" ++ p.role.str ++ "\x27)"

/-- The raw batch insert statement of `createManyUsers`: one value-tuple per
synthesized profile, joined by commas. -/
def dbQuery (profiles : List Profile) : String :=
  "insert into users (id, name, email, role) values" ++
    String.intercalate "," (profiles.map sqlTuple) ++ ";"

/-- Bulk creation `createManyUsers(users)`: synthesizes the completed profiles,
issues one SQL batch insert for the whole list, and yields the profiles in
input order. -/
def createManyUsers (ch : Chance) (users : List UserOptions) :
    List Profile × List Eff :=
  let profiles := mkProfiles ch 0 users
  (profiles, [Eff.sqlInsert (dbQuery profiles)])

/-- Run of `cy.sql(dbQuery).then(() => profiles)`: the outcome of
`createManyUsers` against a remote whose single batch call ends in `sqlRes`; a
failure propagates and no profiles are reported. -/
def createManyUsersRun (ch : Chance) (users : List UserOptions)
    (sqlRes : Except String Unit) : Except String (List Profile) :=
  match sqlRes with
  | .error e => .error e
  | .ok _ => .ok (createManyUsers ch users).1

/-- Single creation `createUser(user?)`: defaults the missing specification to
`{}`, delegates to `createManyUsers` on the singleton list and takes the first
record. -/
def createUser (ch : Chance) (user : Option UserOptions) :
    Option Profile × List Eff :=
  let u := user.getD {}
  let (ps, effs) := createManyUsers ch [u]
  (ps.head?, effs)

/-- The complete `createUserContactMethod` input assembled by
`addContactMethod` once `userID` is truthy: missing (or empty) `name` and
`value` are synthesized (`"SM CM " + c.word({length: 8})`, the `"+1763"`
phone), a missing `type` is a random pick. -/
def cmInputFor (ch : Chance) (cm : ContactMethodOptions) : CMInput :=
  { userID := cm.userID.getD ""
    name := orStr cm.name ("SM CM " ++ ch.word 0 8)
    type := cm.type.getD (ch.pickCM 0)
    value := orStr cm.value ("+1763" ++ natToDec (ch.int 0 3000000 3999999)) }

/-- Provisioner `addContactMethod(cm?)`: if `userID` is falsy, load the active
test subject and retry with its id; otherwise fill the missing fields, issue
the creation mutation and stamp `userID` onto the returned record.  `fuel`
bounds the recursion depth (the source recursion is unbounded when the
resolved id is itself falsy); `none` means the fuel ran out before the
mutation was issued. -/
def addContactMethod (env : Env) :
    Nat → ContactMethodOptions → Option (ContactMethod × List Eff)
  | 0, _ => none
  | fuel + 1, cm =>
    if truthy cm.userID then
      let input := cmInputFor env.ch cm
      let res := env.cmResp input
      some ({ res with userID := cm.userID.getD "" }, [Eff.createCM input])
    else
      match addContactMethod env fuel { cm with userID := some env.prof.id } with
      | none => none
      | some (r, effs) => some (r, Eff.fixtureLoad :: effs)

/-- The user id a notification-rule (or contact-method) call resolves to: the
supplied one when truthy, otherwise the id of the active test subject. -/
def resolvedUserID (env : Env) (uid : Option String) : String :=
  if truthy uid then uid.getD "" else env.prof.id

/-- The complete `createUserNotificationRule` input assembled by
`addNotificationRule` once both ids are truthy: a falsy `delayMinutes` is
synthesized in `0..15`. -/
def nrInputFor (ch : Chance) (nr : NotificationRuleOptions) : NRInput :=
  { userID := nr.userID.getD ""
    contactMethodID := nr.contactMethodID.getD ""
    delayMinutes := orNat nr.delayMinutes (ch.int 1 0 15) }

/-- Provisioner `addNotificationRule(nr?)`: resolve a falsy `userID` from the
active test subject; if `contactMethodID` is falsy, create a contact method
for that user (seeded with the nested partial, its `userID` overridden by the
userID of the rule) and retry with its id; then issue the creation mutation
and stamp the resolved `userID` onto the result and its embedded
`contactMethod`. -/
def addNotificationRule (env : Env) :
    Nat → NotificationRuleOptions → Option (NotificationRule × List Eff)
  | 0, _ => none
  | fuel + 1, nr =>
    if truthy nr.userID then
      if truthy nr.contactMethodID then
        let input := nrInputFor env.ch nr
        let res := env.nrResp input
        let uid := nr.userID.getD ""
        some ({ res with
                  userID := uid
                  contactMethod := { res.contactMethod with userID := uid } },
              [Eff.createNR input])
      else
        match addContactMethod env fuel
            { (nr.contactMethod.getD {}) with userID := nr.userID } with
        | none => none
        | some (cm, cmEffs) =>
          match addNotificationRule env fuel
              { nr with contactMethodID := some cm.id } with
          | none => none
          | some (r, effs) => some (r, cmEffs ++ effs)
    else
      match addNotificationRule env fuel { nr with userID := some env.prof.id } with
      | none => none
      | some (r, effs) => some (r, Eff.fixtureLoad :: effs)

/-- Modelled from the spec: the remote `deleteAll` mutation for a
`contactMethod` target (the backend is not under src) removes the contact
method with the given id from the owned set of the user. -/
def deleteAllStep (st : List String) (cmID : String) : List String :=
  st.filter fun x => x ≠ cmID

/-- Cleanup `clearContactMethods(id)`: query the ids of the contact methods
owned by the user; if there are none, return immediately; otherwise issue one
delete mutation per contact method found.  `st` is the remote state (the
contact-method ids of the user, which the query returns); the result is the
issued trace and the remote state after the deletions. -/
def clearContactMethods (uid : String) (st : List String) :
    List Eff × List String :=
  if st.length = 0 then ([Eff.queryCMs uid], st)
  else (Eff.queryCMs uid :: st.map Eff.deleteCM, st.foldl deleteAllStep st)

/-- Concrete random supply used by the witnesses: every raw draw is 7. -/
def chW : Chance :=
  { raw := fun _ => 7
    guid := fun _ => "gg"
    word := fun _ _ => "wa"
    email := fun _ => "a@b.com"
    email_valid := fun _ => ⟨"a", "b.com", by decide, by decide, rfl⟩ }

/-- Concrete environment used by the witnesses. -/
def envW : Env :=
  { prof := { id := "P1", name := "pn", email := "pe", role := .user }
    ch := chW
    cmResp := fun i =>
      { id := "CM1", userID := "junk", name := i.name, type := i.type,
        value := i.value }
    nrResp := fun i =>
      { id := "NR1", userID := "junkU"
        contactMethodID := i.contactMethodID
        contactMethod :=
          { id := i.contactMethodID, userID := "junkCM", name := "n",
            type := .SMS, value := "v" }
        delayMinutes := i.delayMinutes } }

/-- Record returned in the C1 witness run. -/
def nrResW : NotificationRule :=
  { id := "NR1", userID := "P1", contactMethodID := "CM1",
    contactMethod :=
      { id := "CM1", userID := "P1", name := "n", type := .SMS, value := "v" },
    delayMinutes := 7 }

/-- Contact-method input issued in the C1 witness run. -/
def cmInpW : CMInput :=
  { userID := "P1", name := "SM CM wa", type := .VOICE, value := "+17633000007" }

/-- Trace of the C1 witness run. -/
def nrEffsW : List Eff :=
  [.fixtureLoad, .createCM cmInpW,
   .createNR { userID := "P1", contactMethodID := "CM1", delayMinutes := 7 }]

/-- Options of the C2 witness run: a nonzero supplied delay. -/
def nrOpts5W : NotificationRuleOptions :=
  { userID := some "u", contactMethodID := some "c", delayMinutes := some 5 }

/-- Record returned in the C2 witness run. -/
def nrRes5W : NotificationRule :=
  { id := "NR1", userID := "u", contactMethodID := "c",
    contactMethod :=
      { id := "c", userID := "u", name := "n", type := .SMS, value := "v" },
    delayMinutes := 5 }

/-- Creation input issued in the C2 witness run. -/
def nrInp5W : NRInput :=
  { userID := "u", contactMethodID := "c", delayMinutes := 5 }

/-- Profile returned for the defaulted entry in the C3 witness run. -/
def pW : Profile :=
  { id := "gg", name := "wa", email := "a@b.com", role := .user }

/-- Options of the C6 witness run: a nonempty supplied contact-method id. -/
def nrOpts6W : NotificationRuleOptions :=
  { userID := some "u", contactMethodID := some "c" }

/-- Record returned in the C6 witness run. -/
def nrRes6W : NotificationRule :=
  { id := "NR1", userID := "u", contactMethodID := "c",
    contactMethod :=
      { id := "c", userID := "u", name := "n", type := .SMS, value := "v" },
    delayMinutes := 7 }

/-- Options of the C10 witness run: a nested contact-method partial naming a
different user. -/
def nrOpts10W : NotificationRuleOptions :=
  { userID := some "u", contactMethod := some { userID := some "OTHER" } }

/-- Contact-method input issued in the C10 witness run. -/
def cmInp10W : CMInput :=
  { userID := "u", name := "SM CM wa", type := .VOICE, value := "+17633000007" }

/-- Record returned in the C10 witness run. -/
def nrRes10W : NotificationRule :=
  { id := "NR1", userID := "u", contactMethodID := "CM1",
    contactMethod :=
      { id := "CM1", userID := "u", name := "n", type := .SMS, value := "v" },
    delayMinutes := 7 }

/-- Trace of the C10 witness run. -/
def effs10W : List Eff :=
  [.createCM cmInp10W,
   .createNR { userID := "u", contactMethodID := "CM1", delayMinutes := 7 }]

/-- Resolving an option that already holds the fixture id yields the fixture
id, whether or not that id is empty. -/
theorem resolvedUserID_self (env : Env) :
    resolvedUserID env (some env.prof.id) = env.prof.id := by
  by_cases h : env.prof.id = "" <;> simp [resolvedUserID, truthy, h]

/-- Characterization of a successful `addContactMethod` run: the returned
record carries the resolved userID, exactly one contact-method creation
mutation is issued, with the resolved userID in its input, and no
notification-rule mutation appears in the trace. -/
theorem addCM_spec (env : Env) : ∀ (fuel : Nat) (cm : ContactMethodOptions)
    (r : ContactMethod) (effs : List Eff),
    addContactMethod env fuel cm = some (r, effs) →
    r.userID = resolvedUserID env cm.userID ∧
    cmInputsOf effs =
      [{ cmInputFor env.ch cm with userID := resolvedUserID env cm.userID }] ∧
    nrInputsOf effs = []
  | 0, cm, r, effs, h => by simp [addContactMethod] at h
  | fuel + 1, cm, r, effs, h => by
    rw [addContactMethod] at h
    by_cases hu : truthy cm.userID
    · rw [if_pos hu] at h
      simp only [Option.some.injEq, Prod.mk.injEq] at h
      obtain ⟨hr, he⟩ := h
      subst hr he
      have hres : resolvedUserID env cm.userID = cm.userID.getD "" := by
        simp [resolvedUserID, hu]
      refine ⟨by simp [hres], ?_, ?_⟩
      · simp [cmInputsOf, cmInputFor, hres]
      · simp [nrInputsOf]
    · rw [if_neg hu] at h
      cases hrec : addContactMethod env fuel { cm with userID := some env.prof.id } with
      | none => rw [hrec] at h; simp at h
      | some pr =>
        rw [hrec] at h
        simp only [Option.some.injEq] at h
        obtain ⟨r0, effs0⟩ := pr
        have := addCM_spec env fuel { cm with userID := some env.prof.id } r0 effs0 hrec
        obtain ⟨h1, h2, h3⟩ := this
        rw [resolvedUserID_self] at h1 h2
        have hres : resolvedUserID env cm.userID = env.prof.id := by
          simp [resolvedUserID, hu]
        cases h
        refine ⟨by rw [h1, hres], ?_, ?_⟩
        · rw [hres]
          simpa [cmInputsOf, cmInputFor] using h2
        · simpa [nrInputsOf] using h3

/-- Characterization of a successful `addNotificationRule` run: the resolved
userID is stamped onto the result and its embedded contact method, exactly
one notification-rule creation input is issued, carrying the resolved userID
and the JavaScript-defaulted delay, no contact-method creation happens when a
truthy `contactMethodID` was supplied, and every issued contact-method input
is owned by the resolved user. -/
theorem addNR_spec (env : Env) : ∀ (fuel : Nat) (nr : NotificationRuleOptions)
    (r : NotificationRule) (effs : List Eff),
    addNotificationRule env fuel nr = some (r, effs) →
    r.userID = resolvedUserID env nr.userID ∧
    r.contactMethod.userID = resolvedUserID env nr.userID ∧
    (∃ inp, nrInputsOf effs = [inp] ∧
      inp.userID = resolvedUserID env nr.userID ∧
      inp.delayMinutes = orNat nr.delayMinutes (env.ch.int 1 0 15) ∧
      (truthy nr.contactMethodID = true →
        inp.contactMethodID = nr.contactMethodID.getD "")) ∧
    (truthy nr.contactMethodID = true → cmInputsOf effs = []) ∧
    (∀ i ∈ cmInputsOf effs, i.userID = resolvedUserID env nr.userID)
  | 0, nr, r, effs, h => by simp [addNotificationRule] at h
  | fuel + 1, nr, r, effs, h => by
    rw [addNotificationRule] at h
    by_cases hu : truthy nr.userID
    · rw [if_pos hu] at h
      by_cases hc : truthy nr.contactMethodID
      · rw [if_pos hc] at h
        simp only [Option.some.injEq, Prod.mk.injEq] at h
        obtain ⟨hr, he⟩ := h
        subst hr he
        have hres : resolvedUserID env nr.userID = nr.userID.getD "" := by
          simp [resolvedUserID, hu]
        refine ⟨by simp [hres], by simp [hres], ?_, ?_, ?_⟩
        · exact ⟨nrInputFor env.ch nr, by simp [nrInputsOf],
            by simp [nrInputFor, hres], rfl, fun _ => rfl⟩
        · intro _; simp [cmInputsOf]
        · simp [cmInputsOf]
      · rw [if_neg hc] at h
        cases hcm : addContactMethod env fuel
            { (nr.contactMethod.getD {}) with userID := nr.userID } with
        | none => rw [hcm] at h; simp at h
        | some pcm =>
          obtain ⟨cm, cmEffs⟩ := pcm
          rw [hcm] at h
          dsimp only at h
          cases hrec : addNotificationRule env fuel
              { nr with contactMethodID := some cm.id } with
          | none => rw [hrec] at h; simp at h
          | some pnr =>
            obtain ⟨r0, effs0⟩ := pnr
            rw [hrec] at h
            dsimp only at h
            simp only [Option.some.injEq, Prod.mk.injEq] at h
            obtain ⟨hr, he⟩ := h
            subst hr he
            obtain ⟨c1, c2, c3⟩ := addCM_spec env fuel
              { (nr.contactMethod.getD {}) with userID := nr.userID } cm cmEffs hcm
            obtain ⟨n1, n2, ⟨inp, hinp, hiu, hid, _⟩, _, n5⟩ := addNR_spec env fuel
              { nr with contactMethodID := some cm.id } r0 effs0 hrec
            refine ⟨by simpa using n1, by simpa using n2, ?_, ?_, ?_⟩
            · refine ⟨inp, ?_, by simpa using hiu, by simpa using hid, ?_⟩
              · simp only [nrInputsOf, List.filterMap_append] at hinp ⊢
                simp only [nrInputsOf] at c3
                rw [c3, hinp, List.nil_append]
              · intro hct; exact absurd hct (by simp [hc])
            · intro hct; exact absurd hct (by simp [hc])
            · intro i hi
              simp only [cmInputsOf, List.filterMap_append, List.mem_append] at hi
              rcases hi with hi | hi
              · simp only [cmInputsOf] at c2
                rw [c2] at hi
                simp only [List.mem_singleton] at hi
                subst hi
                simp [resolvedUserID, hu]
              · exact n5 i hi
    · rw [if_neg hu] at h
      cases hrec : addNotificationRule env fuel
          { nr with userID := some env.prof.id } with
      | none => rw [hrec] at h; simp at h
      | some pnr =>
        obtain ⟨r0, effs0⟩ := pnr
        rw [hrec] at h
        dsimp only at h
        simp only [Option.some.injEq, Prod.mk.injEq] at h
        obtain ⟨hr, he⟩ := h
        subst hr he
        obtain ⟨n1, n2, ⟨inp, hinp, hiu, hid, hic⟩, n4, n5⟩ := addNR_spec env fuel
          { nr with userID := some env.prof.id } r0 effs0 hrec
        rw [resolvedUserID_self] at n1 n2 hiu
        have hres : resolvedUserID env nr.userID = env.prof.id := by
          simp [resolvedUserID, hu]
        rw [hres]
        refine ⟨n1, n2, ⟨inp, by simpa [nrInputsOf] using hinp, hiu,
          by simpa using hid, by simpa using hic⟩, ?_, ?_⟩
        · intro hct
          simpa [cmInputsOf] using n4 (by simpa using hct)
        · intro i hi
          have := n5 i (by simpa [cmInputsOf] using hi)
          rw [resolvedUserID_self] at this
          exact this

/-- The synthesized profile list has the length of the input list. -/
theorem mkProfiles_length (ch : Chance) :
    ∀ (k : Nat) (users : List UserOptions),
    (mkProfiles ch k users).length = users.length
  | _, [] => rfl
  | k, _ :: rest => by
    simp [mkProfiles, mkProfiles_length ch (k + 1) rest]

/-- The synthesized profile at position `i` is built from the input options at
position `i`. -/
theorem mkProfiles_getElem (ch : Chance) :
    ∀ (k : Nat) (users : List UserOptions) (i : Nat),
    (mkProfiles ch k users)[i]? = (users[i]?).map (mkProfile ch (k + i))
  | _, [], i => by simp [mkProfiles]
  | k, u :: rest, 0 => by simp [mkProfiles]
  | k, u :: rest, i + 1 => by
    have ih := mkProfiles_getElem ch (k + 1) rest i
    simp only [mkProfiles, List.getElem?_cons_succ]
    rw [ih]
    have : k + 1 + i = k + (i + 1) := by omega
    rw [this]

/-- Deleting every id of `l` from a state contained in `l` empties the state. -/
theorem foldl_deleteAll_nil :
    ∀ (l s : List String), (∀ x ∈ s, x ∈ l) → l.foldl deleteAllStep s = []
  | [], s, h => by
    cases s with
    | nil => rfl
    | cons a t => exact absurd (h a (by simp)) (by simp)
  | i :: l, s, h => by
    rw [List.foldl_cons]
    apply foldl_deleteAll_nil l (deleteAllStep s i)
    intro x hx
    simp only [deleteAllStep, List.mem_filter, decide_eq_true_eq] at hx
    have := h x hx.1
    simp only [List.mem_cons] at this
    rcases this with h1 | h1
    · exact absurd h1 hx.2
    · exact h1

/-- A trace of pure deletions projects back to its id list. -/
theorem deletesOf_map (l : List String) :
    deletesOf (l.map Eff.deleteCM) = l := by
  induction l with
  | nil => rfl
  | cons a t ih => simpa [deletesOf, List.filterMap_cons] using ih

/-- The fuel-based decimal digit list agrees with `Nat.digits` once the fuel
covers the number. -/
theorem decDigits_eq (fuel : Nat) : ∀ (n : Nat), n ≤ fuel →
    decDigits fuel n = ((Nat.digits 10 n).map Nat.digitChar).reverse := by
  induction fuel with
  | zero =>
    intro n hn
    have : n = 0 := by omega
    subst this
    simp [decDigits]
  | succ fuel ih =>
    intro n hn
    by_cases h0 : n = 0
    · subst h0; simp [decDigits]
    · rw [decDigits, if_neg h0]
      rw [Nat.digits_def' (by norm_num : (1 : Nat) < 10) (Nat.pos_of_ne_zero h0)]
      rw [List.map_cons, List.reverse_cons]
      have hdiv : n / 10 < n := Nat.div_lt_self (Nat.pos_of_ne_zero h0) (by norm_num)
      rw [ih (n / 10) (by omega)]

/-- Seven-digit numbers have decimal representations of length seven. -/
theorem natToDec_length (n : Nat) (h1 : 1000000 ≤ n) (h2 : n < 10000000) :
    (natToDec n).length = 7 := by
  have hn : n ≠ 0 := by omega
  rw [natToDec, if_neg hn]
  have hmk : (String.mk (decDigits n n)).length = (decDigits n n).length := rfl
  rw [hmk, decDigits_eq n n le_rfl, List.length_reverse, List.length_map]
  rw [Nat.digits_len 10 n (by norm_num) hn]
  have hlog : Nat.log 10 n = 6 :=
    Nat.log_eq_of_pow_le_of_lt_pow (by norm_num; omega) (by norm_num; omega)
  omega

/-- Claim C1: every notification rule record returned by `addNotificationRule`
has `userID` and `contactMethod.userID` (and the userID of the issued
creation input) equal to the userID used for creation, resolved from the
partial specification or from the active test subject, because the
provisioner stamps this value after the remote mutation returns. -/
theorem C1_nr_userID_stamped (env : Env) (fuel : Nat)
    (nr : NotificationRuleOptions) (r : NotificationRule) (effs : List Eff)
    (h : addNotificationRule env fuel nr = some (r, effs)) :
    r.userID = resolvedUserID env nr.userID ∧
    r.contactMethod.userID = resolvedUserID env nr.userID ∧
    ∀ i ∈ nrInputsOf effs, i.userID = resolvedUserID env nr.userID := by
  obtain ⟨h1, h2, ⟨inp, hinp, hiu, _, _⟩, _, _⟩ := addNR_spec env fuel nr r effs h
  refine ⟨h1, h2, ?_⟩
  intro i hi
  rw [hinp] at hi
  simp only [List.mem_singleton] at hi
  subst hi
  exact hiu

/-- Witness for C1: a concrete run from the empty partial specification. -/
theorem C1_witness :
    addNotificationRule envW 3 {} = some (nrResW, nrEffsW) ∧
    nrResW.userID = resolvedUserID envW none ∧
    nrResW.contactMethod.userID = resolvedUserID envW none :=
  ⟨by decide, (C1_nr_userID_stamped envW 3 {} nrResW nrEffsW (by decide)).1,
    (C1_nr_userID_stamped envW 3 {} nrResW nrEffsW (by decide)).2.1⟩

/-- Counterexample to claim C2 as stated: supplying `delayMinutes = 0` does not
put 0 into the creation mutation; the synthesized draw 7 is used instead,
because the JavaScript `||` treats 0 as unspecified. -/
theorem C2_counterexample :
    (addNotificationRule envW 1
        { userID := some "u", contactMethodID := some "c",
          delayMinutes := some 0 }).map (fun p => nrInputsOf p.2) =
      some [{ userID := "u", contactMethodID := "c", delayMinutes := 7 }] ∧
    (7 : Nat) ≠ 0 := by decide

/-- Claim C2 (amended): for every partial specification supplying a nonzero
`delayMinutes`, the creation mutation input carries exactly the supplied
value; when `delayMinutes` is unspecified or 0 (falsy), a synthesized value in
the range 0 to 15 is used. -/
theorem C2_amended_delay (env : Env) (fuel : Nat) (nr : NotificationRuleOptions)
    (r : NotificationRule) (effs : List Eff)
    (h : addNotificationRule env fuel nr = some (r, effs)) :
    (∀ d, nr.delayMinutes = some d → d ≠ 0 →
      ∀ i ∈ nrInputsOf effs, i.delayMinutes = d) ∧
    ((nr.delayMinutes = none ∨ nr.delayMinutes = some 0) →
      ∀ i ∈ nrInputsOf effs,
        i.delayMinutes = env.ch.int 1 0 15 ∧ i.delayMinutes ≤ 15) := by
  obtain ⟨_, _, ⟨inp, hinp, _, hid, _⟩, _, _⟩ := addNR_spec env fuel nr r effs h
  constructor
  · intro d hd hdne i hi
    rw [hinp] at hi
    simp only [List.mem_singleton] at hi
    subst hi
    rw [hid, hd]
    simp [orNat, hdne]
  · intro hcase i hi
    rw [hinp] at hi
    simp only [List.mem_singleton] at hi
    subst hi
    have hsyn : i.delayMinutes = env.ch.int 1 0 15 := by
      rcases hcase with hn | h0
      · rw [hid, hn]; rfl
      · rw [hid, h0]; simp [orNat]
    refine ⟨hsyn, ?_⟩
    rw [hsyn]
    unfold Chance.int
    omega

/-- Witness for C2: a run with supplied delay 5 preserves it. -/
theorem C2_witness :
    addNotificationRule envW 1 nrOpts5W = some (nrRes5W, [Eff.createNR nrInp5W]) ∧
    nrInp5W.delayMinutes = 5 :=
  ⟨by decide,
    (C2_amended_delay envW 1 nrOpts5W nrRes5W [Eff.createNR nrInp5W]
      (by decide)).1 5 rfl (by decide) nrInp5W (by decide)⟩

/-- Counterexample to claim C3 as stated: a supplied empty-string `name` is not
preserved; the returned profile carries the synthesized name, because the
JavaScript `||` treats the empty string as missing. -/
theorem C3_counterexample :
    (createManyUsers chW [{ name := some "" }]).1.map Profile.name = ["wa"] ∧
    ("wa" : String) ≠ "" := by decide

/-- Claim C3 (amended): `createManyUsers` issues exactly one remote operation
covering the whole list (one value-tuple per user), the returned profiles
match the input list in length and position, each supplied nonempty field is
preserved, missing `name` and `email` are synthesized, and a missing `role`
defaults to `user`; empty-string fields count as missing. -/
theorem C3_amended_batch (ch : Chance) (users : List UserOptions) (i : Nat)
    (u : UserOptions) (p : Profile) (hu : users[i]? = some u)
    (hp : (createManyUsers ch users).1[i]? = some p) :
    (createManyUsers ch users).2 =
      [Eff.sqlInsert (dbQuery (createManyUsers ch users).1)] ∧
    (createManyUsers ch users).1.length = users.length ∧
    p = mkProfile ch i u ∧
    (∀ s, u.name = some s → s ≠ "" → p.name = s) ∧
    (u.name = none → p.name = ch.word i 12) ∧
    (∀ s, u.email = some s → s ≠ "" → p.email = s) ∧
    (u.email = none → p.email = ch.email i) ∧
    (∀ rl, u.role = some rl → p.role = rl) ∧
    (u.role = none → p.role = UserRole.user) := by
  have hp' : p = mkProfile ch i u := by
    have hg := mkProfiles_getElem ch 0 users i
    simp only [createManyUsers] at hp
    rw [hg, hu] at hp
    simp at hp
    exact hp.symm
  subst hp'
  refine ⟨rfl, mkProfiles_length ch 0 users, rfl, ?_, ?_, ?_, ?_, ?_, ?_⟩
  · intro s hs hne; simp [mkProfile, orStr, hs, hne]
  · intro hn; simp [mkProfile, orStr, hn]
  · intro s hs hne; simp [mkProfile, orStr, hs, hne]
  · intro hn; simp [mkProfile, orStr, hn]
  · intro rl hr; simp [mkProfile, hr]
  · intro hr; simp [mkProfile, hr]

/-- Witness for C3: a two-element batch, checked at the defaulted entry. -/
theorem C3_witness :
    ([{ name := some "Alice" }, { name := none }] : List UserOptions)[1]? =
      some { name := none } ∧
    (createManyUsers chW
        [{ name := some "Alice" }, { name := none }]).1[1]? = some pW ∧
    pW.name = chW.word 1 12 :=
  ⟨rfl, by decide,
    (C3_amended_batch chW [{ name := some "Alice" }, { name := none }] 1
      { name := none } pW rfl (by decide)).2.2.2.2.1 rfl⟩

/-- Claim C4: `createManyUsersRun` fails atomically; when the single batch
operation fails, the failure propagates unchanged and no profile record is
reported for any entry of the input list. -/
theorem C4_atomic_failure (ch : Chance) (users : List UserOptions) (e : String) :
    createManyUsersRun ch users (.error e) = .error e ∧
    (createManyUsersRun ch users (.error e)).toOption = none :=
  ⟨rfl, rfl⟩

/-- Claim C5: `clearContactMethods` issues exactly one delete mutation per
contact method found, issues none when the user owns zero contact methods,
and is idempotent: a second call in a row issues zero deletions. -/
theorem C5_cleanup_idempotent (uid : String) (st : List String) :
    deletesOf (clearContactMethods uid st).1 = st ∧
    deletesOf (clearContactMethods uid ([] : List String)).1 = [] ∧
    (clearContactMethods uid st).2 = [] ∧
    deletesOf (clearContactMethods uid (clearContactMethods uid st).2).1 = [] := by
  have hone : deletesOf (clearContactMethods uid st).1 = st := by
    by_cases h : st.length = 0
    · have : st = [] := List.length_eq_zero.mp h
      subst this
      simp [clearContactMethods, deletesOf]
    · rw [clearContactMethods, if_neg h]
      simpa [deletesOf, List.filterMap_cons] using deletesOf_map st
  have hpost : (clearContactMethods uid st).2 = [] := by
    by_cases h : st.length = 0
    · have : st = [] := List.length_eq_zero.mp h
      subst this
      simp [clearContactMethods]
    · rw [clearContactMethods, if_neg h]
      exact foldl_deleteAll_nil st st fun x hx => hx
  refine ⟨hone, by simp [clearContactMethods, deletesOf], hpost, ?_⟩
  rw [hpost]
  simp [clearContactMethods, deletesOf]

/-- Counterexample to claim C6 as stated: supplying the empty string as
`contactMethodID` does trigger creation of a new contact method (one creation
mutation is issued), because the JavaScript falsiness check treats the empty
string as missing. -/
theorem C6_counterexample :
    (addNotificationRule envW 3
        { userID := some "u", contactMethodID := some "" }).map
      (fun p => (cmInputsOf p.2).length) = some 1 := by decide

/-- Claim C6 (amended): for every partial specification supplying a nonempty
`contactMethodID`, no contact method is created and the supplied id is used
directly in the creation mutation. -/
theorem C6_amended_short_circuit (env : Env) (fuel : Nat)
    (nr : NotificationRuleOptions) (r : NotificationRule) (effs : List Eff)
    (s : String) (hs : nr.contactMethodID = some s) (hne : s ≠ "")
    (h : addNotificationRule env fuel nr = some (r, effs)) :
    cmInputsOf effs = [] ∧ ∀ i ∈ nrInputsOf effs, i.contactMethodID = s := by
  have ht : truthy nr.contactMethodID = true := by simp [truthy, hs, hne]
  obtain ⟨_, _, ⟨inp, hinp, _, _, hic⟩, h4, _⟩ := addNR_spec env fuel nr r effs h
  refine ⟨h4 ht, ?_⟩
  intro i hi
  rw [hinp] at hi
  simp only [List.mem_singleton] at hi
  subst hi
  rw [hic ht, hs]
  rfl

/-- Witness for C6: a run with a supplied contact-method id issues no
contact-method creation. -/
theorem C6_witness :
    addNotificationRule envW 1 nrOpts6W =
      some (nrRes6W,
        [Eff.createNR { userID := "u", contactMethodID := "c", delayMinutes := 7 }]) ∧
    cmInputsOf
        [Eff.createNR { userID := "u", contactMethodID := "c", delayMinutes := 7 }] =
      [] :=
  ⟨by decide,
    (C6_amended_short_circuit envW 1 nrOpts6W nrRes6W
      [Eff.createNR { userID := "u", contactMethodID := "c", delayMinutes := 7 }]
      "c" rfl (by decide) (by decide)).1⟩

/-- Claim C7: the recursive dependency resolution terminates; when the fixture
id and the ids returned by the remote contact-method mutation are nonempty,
fuel 2 suffices for `addContactMethod` (one retry level) and fuel 3 for
`addNotificationRule` (at most two retry levels before the mutation is
issued), each retry strictly reducing the missing dependencies. -/
theorem C7_termination (env : Env) (cm : ContactMethodOptions)
    (nr : NotificationRuleOptions) (hp : env.prof.id ≠ "")
    (hcm : ∀ i, (env.cmResp i).id ≠ "") :
    (addContactMethod env 2 cm).isSome = true ∧
    (addNotificationRule env 3 nr).isSome = true := by
  have hprof : truthy (some env.prof.id) = true := by simp [truthy, hp]
  have hcmSome : ∀ (fuel : Nat) (c0 : ContactMethodOptions),
      truthy c0.userID = true →
      addContactMethod env (fuel + 1) c0 =
        some ({ env.cmResp (cmInputFor env.ch c0) with
                  userID := c0.userID.getD "" },
              [Eff.createCM (cmInputFor env.ch c0)]) := by
    intro fuel c0 hc0
    rw [addContactMethod, if_pos hc0]
  have hcmAll : ∀ (c0 : ContactMethodOptions),
      (addContactMethod env 2 c0).isSome = true := by
    intro c0
    by_cases hc0 : truthy c0.userID
    · rw [show (2 : Nat) = 1 + 1 from rfl, hcmSome 1 c0 hc0]
      rfl
    · rw [show (2 : Nat) = 1 + 1 from rfl, addContactMethod, if_neg hc0]
      rw [hcmSome 0 { c0 with userID := some env.prof.id } (by simpa using hprof)]
      rfl
  have hnrReady : ∀ (fuel : Nat) (n0 : NotificationRuleOptions),
      truthy n0.userID = true → truthy n0.contactMethodID = true →
      (addNotificationRule env (fuel + 1) n0).isSome = true := by
    intro fuel n0 h1 h2
    rw [addNotificationRule, if_pos h1, if_pos h2]
    rfl
  have hnrU : ∀ (fuel : Nat) (n0 : NotificationRuleOptions),
      truthy n0.userID = true →
      (addNotificationRule env (fuel + 1 + 1) n0).isSome = true := by
    intro fuel n0 h1
    by_cases h2 : truthy n0.contactMethodID
    · exact hnrReady (fuel + 1) n0 h1 h2
    · rw [addNotificationRule, if_pos h1, if_neg h2]
      rw [hcmSome fuel { (n0.contactMethod.getD {}) with userID := n0.userID }
        (by simpa using h1)]
      dsimp only
      have hid : truthy (some ((env.cmResp (cmInputFor env.ch
          { (n0.contactMethod.getD {}) with userID := n0.userID })).id)) = true := by
        simp [truthy, hcm]
      have hin := hnrReady fuel
        { n0 with contactMethodID := some ((env.cmResp (cmInputFor env.ch
            { (n0.contactMethod.getD {}) with userID := n0.userID })).id) }
        (by simpa using h1) (by simpa using hid)
      rcases Option.isSome_iff_exists.mp hin with ⟨⟨r0, e0⟩, hv⟩
      rw [hv]
      rfl
  refine ⟨hcmAll cm, ?_⟩
  by_cases h1 : truthy nr.userID
  · exact hnrU 1 nr h1
  · rw [show (3 : Nat) = 2 + 1 from rfl, addNotificationRule, if_neg h1]
    have h2 : (addNotificationRule env 2
        { nr with userID := some env.prof.id }).isSome = true :=
      hnrU 0 { nr with userID := some env.prof.id } (by simpa using hprof)
    rcases Option.isSome_iff_exists.mp h2 with ⟨⟨r0, e0⟩, hv⟩
    rw [hv]
    rfl

/-- Witness for C7 at the concrete witness environment. -/
theorem C7_witness :
    envW.prof.id ≠ "" ∧
    (addContactMethod envW 2 { name := some "x" }).isSome = true ∧
    (addNotificationRule envW 3 {}).isSome = true :=
  ⟨by decide,
    (C7_termination envW { name := some "x" } {} (by decide)
      (fun _ => by show ("CM1" : String) ≠ ""; decide)).1,
    (C7_termination envW { name := some "x" } {} (by decide)
      (fun _ => by show ("CM1" : String) ≠ ""; decide)).2⟩

/-- Claim C8: `createUser` on a specification carrying only the name Alice
returns that name, a synthesized syntactically valid email, role `user` and a
freshly drawn guid id; in general it issues a single batch insert covering
just the one user and fills every missing field. -/
theorem C8_createUser_defaults (ch : Chance) (u : Option UserOptions) :
    (createUser ch (some { name := some "Alice" })).1 =
      some { id := ch.guid 0, name := "Alice", email := ch.email 0,
             role := UserRole.user } ∧
    ValidEmail (ch.email 0) ∧
    (createUser ch u).2 =
      [Eff.sqlInsert (dbQuery [mkProfile ch 0 (u.getD {})])] ∧
    (createUser ch (some { name := none })).1 =
      some { id := ch.guid 0, name := ch.word 0 12, email := ch.email 0,
             role := UserRole.user } :=
  ⟨rfl, ch.email_valid 0, rfl, rfl⟩

/-- Claim C9: every synthesized contact-method phone value is the fixed prefix
+1763 concatenated with a drawn integer suffix lying in the bounded range
3000000 to 3999999, whose decimal representation always has exactly 7 digits,
and it is the value used when none is supplied. -/
theorem C9_phone_shape (ch : Chance) :
    3000000 ≤ ch.int 0 3000000 3999999 ∧
    ch.int 0 3000000 3999999 ≤ 3999999 ∧
    (natToDec (ch.int 0 3000000 3999999)).length = 7 ∧
    (cmInputFor ch { userID := some "u" }).value =
      "+1763" ++ natToDec (ch.int 0 3000000 3999999) := by
  have hlo : 3000000 ≤ ch.int 0 3000000 3999999 := by
    unfold Chance.int; omega
  have hhi : ch.int 0 3000000 3999999 ≤ 3999999 := by
    unfold Chance.int
    have := Nat.mod_lt (ch.raw 0) (show 0 < 3999999 - 3000000 + 1 by norm_num)
    omega
  exact ⟨hlo, hhi, natToDec_length _ (by omega) (by omega), rfl⟩

/-- Claim C10: when `addNotificationRule` creates a contact method implicitly,
every issued contact-method creation input carries the resolved userID of the
rule, even if the nested `contactMethod` partial specifies a different one. -/
theorem C10_nested_userID_override (env : Env) (fuel : Nat)
    (nr : NotificationRuleOptions) (r : NotificationRule) (effs : List Eff)
    (h : addNotificationRule env fuel nr = some (r, effs)) :
    ∀ i ∈ cmInputsOf effs, i.userID = resolvedUserID env nr.userID :=
  (addNR_spec env fuel nr r effs h).2.2.2.2

/-- Witness for C10: the nested partial names user OTHER, the created contact
method is owned by the user of the rule. -/
theorem C10_witness :
    addNotificationRule envW 2 nrOpts10W = some (nrRes10W, effs10W) ∧
    cmInp10W.userID = resolvedUserID envW nrOpts10W.userID ∧
    cmInp10W.userID ≠ "OTHER" :=
  ⟨by decide,
    C10_nested_userID_override envW 2 nrOpts10W nrRes10W effs10W (by decide)
      cmInp10W (by decide),
    by decide⟩

end Profile2
